import Mathlib

/-!
# A shallow embedding of the clox-style single-pass bytecode compiler

This file embeds `src/c/compiler.c` — a one-pass Pratt-parser/bytecode-emitter
for a small scripting language — as executable Lean definitions, and proves
the specification's claims about it.

Modelling conventions:
* machine bytes are `Nat` with `% 256` where the C code converts to `uint8_t`;
* the growable C arrays (`code`, `codeLines`, `constants`, the VM value stack)
  are Lean lists; the capacity-doubling in `emitByte` and
  `ensureArrayCapacity` is pure allocation with no observable effect on the
  stored sequence, so it has no counterpart here;
* the global `parser` and `compiler` variables become one explicit `State`
  record threaded through every function; the compiler chain
  (`compiler->enclosing`) is the list `State.compilers`, head = innermost;
* diagnostics printed to stderr are collected in `State.errors` as
  (line, message) pairs;
* the scanner, the opcode enumeration and the runtime value representation
  live outside the given source; they are modelled from the spec where noted.
-/

namespace CLox

/-- Token kinds, in the order of the rule-table comments of `compiler.c`
(lines 424-468) and of the scanner contract in §6 of the spec. -/
inductive TokenType where
  | tLeftParen | tRightParen | tLeftBracket | tRightBracket
  | tLeftBrace | tRightBrace
  | tBang | tBangEqual | tComma | tDot | tEqual | tEqualEqual
  | tGreater | tGreaterEqual | tLess | tLessEqual
  | tMinus | tPlus | tSemicolon | tSlash | tStar
  | tIdentifier | tStringTok | tNumber
  | tAnd | tClass | tElse | tFalse | tFun | tFor | tIf | tNull | tOr
  | tReturn | tThis | tTrue | tVar | tWhile
  | tError | tEof
deriving DecidableEq, Repr

/-- A token: kind, lexeme (the borrowed source slice, as a string) and line.
The C `Token` carries `start`/`length` pointers into the source; equality of
`length` plus `memcmp` of the bytes is exactly equality of the lexeme
string, which is how it is modelled here. -/
structure Token where
  type : TokenType
  lexeme : String
  line : Nat
deriving DecidableEq, Repr

/-- Modelled from the spec: the opcode enumeration (§6) is declared in a
header that is not part of the given source.  The numeric values are chosen
arbitrarily but distinct; the only structure the source relies on is that
`OP_CALL_0 + argCount` is the call opcode for `argCount` arguments (the call
opcodes form a contiguous family). -/
def OP_CONSTANT : Nat := 0

def OP_NULL : Nat := 1

def OP_POP : Nat := 2

def OP_GET_LOCAL : Nat := 3

def OP_SET_LOCAL : Nat := 4

def OP_GET_GLOBAL : Nat := 5

def OP_SET_GLOBAL : Nat := 6

def OP_DEFINE_GLOBAL : Nat := 7

def OP_EQUAL : Nat := 8

def OP_GREATER : Nat := 9

def OP_LESS : Nat := 10

def OP_ADD : Nat := 11

def OP_SUBTRACT : Nat := 12

def OP_MULTIPLY : Nat := 13

def OP_DIVIDE : Nat := 14

def OP_NOT : Nat := 15

def OP_NEGATE : Nat := 16

def OP_JUMP : Nat := 17

def OP_JUMP_IF_FALSE : Nat := 18

def OP_LOOP : Nat := 19

def OP_CALL_0 : Nat := 20

def OP_RETURN : Nat := 30

/-- Runtime values, as far as the compiler observes them.  The value
representation is outside the given source (§1 of the spec); the compiler
only builds values with `newString`, `newNumber`, `newBool`, `newFunction`.
`vNumber` keeps the numeral's lexeme (the conversion `strtod` is external);
`vNullPtr` models the C `NULL` pointer that `endCompiler` returns after an
erroneous compile and that `funStatement` then passes to `emitConstant`. -/
inductive Value where
  | vString (s : String)
  | vNumber (lexeme : String)
  | vBool (b : Bool)
  | vNullPtr
  | vFunction (code : List Nat) (codeLines : List Nat)
      (constants : List Value) (arity : Nat)
deriving Repr

/-- `ObjFunction`: the function-in-progress (object.h fields used by the
compiler: `code`, `codeLines`, `constants`, `arity`; the two capacity
counters have no observable content). -/
structure ObjFunction where
  code : List Nat
  codeLines : List Nat
  constants : List Value
  arity : Nat
deriving Repr

/-- `newFunction()`: a fresh, empty function object. -/
def newFunction : ObjFunction := ⟨[], [], [], 0⟩

/-- The completed function as a constant-pool value (the C code just casts
the `ObjFunction*`; a `NULL` result becomes `vNullPtr`). -/
def fnValue : Option ObjFunction → Value
  | some f => Value.vFunction f.code f.codeLines f.constants f.arity
  | none => Value.vNullPtr

/-- A declared local: its name token and the scope depth it was declared at
(compiler.c lines 43-52). -/
structure Local where
  name : Token
  depth : Int
deriving DecidableEq, Repr

/-- One compiler frame (compiler.c lines 54-70).  `localCount` is implicit as
`locals.length`; MAX_LOCALS is not enforced, faithfully to the source, which
only carries a `TODO: Check for overflow`. -/
structure Compiler where
  function : ObjFunction
  locals : List Local
  scopeDepth : Int
deriving Repr

/-- The global mutable state of compiler.c: the `parser` singleton, the
`compiler` chain (head = innermost frame), the scanner's remaining tokens,
the collected diagnostics and the VM value stack used for GC rooting. -/
structure State where
  tokens : List Token
  current : Token
  previous : Token
  hadError : Bool
  errors : List (Nat × String)
  vmStack : List Value
  compilers : List Compiler
deriving Repr

/-- Modelled from the spec: the scanner (not in the given source) yields the
next token, and after the last real token returns the EOF sentinel
indefinitely (§6). -/
def eofToken : Token := ⟨TokenType.tEof, "", 0⟩

/-- `scanToken()` drawn from the modelled token stream. -/
def scanToken (s : State) : State × Token :=
  match s.tokens with
  | [] => (s, eofToken)
  | t :: rest => ({ s with tokens := rest }, t)

/-- `advance()`: `previous ← current; current ← scanToken()`. -/
def advance (s : State) : State :=
  let (s1, t) := scanToken s
  { s1 with previous := s1.current, current := t }

/-- `errorAt(line, message)`: report a diagnostic and set the sticky
`hadError` flag. -/
def errorAt (line : Nat) (message : String) (s : State) : State :=
  { s with hadError := true, errors := s.errors ++ [(line, message)] }

/-- `error(message)`: report at the previous token's line. -/
def error (message : String) (s : State) : State :=
  errorAt s.previous.line message s

/-- `check(type)`. -/
def check (type : TokenType) (s : State) : Bool :=
  s.current.type = type

/-- `consume(type, message)`: report on mismatch, then advance regardless. -/
def consume (type : TokenType) (message : String) (s : State) : State :=
  advance (if s.current.type ≠ type then error message s else s)

/-- `match(type)` (named `matchToken`: `match` is a Lean keyword). -/
def matchToken (type : TokenType) (s : State) : State × Bool :=
  if check type s then (advance s, true) else (s, false)

/-- Apply `f` to the innermost compiler frame (`compiler->...`). -/
def withCompiler (f : Compiler → Compiler) (s : State) : State :=
  match s.compilers with
  | [] => s
  | c :: cs => { s with compilers := f c :: cs }

/-- Apply `f` to the innermost frame's function (`compiler->function->...`). -/
def withFunction (f : ObjFunction → ObjFunction) (s : State) : State :=
  withCompiler (fun c => { c with function := f c.function }) s

/-- `compiler->function->codeCount`. -/
def codeCount (s : State) : Nat :=
  match s.compilers with
  | [] => 0
  | c :: _ => c.function.code.length

/-- `compiler->function->constants.count`. -/
def constantsCount (s : State) : Nat :=
  match s.compilers with
  | [] => 0
  | c :: _ => c.function.constants.length

/-- `emitByte(byte)`: append the byte (a `uint8_t`, hence `% 256`) to `code`
and `previous.line` to `codeLines`.  The geometric capacity growth of the
two C arrays has no observable effect on the stored sequences. -/
def emitByte (byte : Nat) (s : State) : State :=
  withFunction (fun f =>
    { f with
      code := f.code ++ [byte % 256],
      codeLines := f.codeLines ++ [s.previous.line] }) s

/-- `emitBytes(byte1, byte2)`. -/
def emitBytes (byte1 byte2 : Nat) (s : State) : State :=
  emitByte byte2 (emitByte byte1 s)

/-- `emitLoop(loopStart)`: `OP_LOOP` then the big-endian 16-bit offset
`codeCount − loopStart + 2`, where `codeCount` is read after `OP_LOOP` was
emitted.  The C `int` arithmetic never goes negative on the source's call
sites (`loopStart ≤ codeCount`); `Int.toNat` mirrors that regime. -/
def emitLoop (loopStart : Nat) (s : State) : State :=
  let s1 := emitByte OP_LOOP s
  let offset : Int := (codeCount s1 : Int) - (loopStart : Int) + 2
  let s2 := emitByte ((offset.toNat >>> 8) % 256) s1
  emitByte (offset.toNat % 256) s2

/-- `emitJump(instruction)`: the instruction plus two 0xFF placeholder
bytes; returns the offset of the first placeholder. -/
def emitJump (instruction : Nat) (s : State) : State × Nat :=
  let s1 := emitByte 0xff (emitByte 0xff (emitByte instruction s))
  (s1, codeCount s1 - 2)

/-- `patchJump(offset)`: overwrite the two placeholder bytes with the
big-endian `jump = codeCount − offset − 2`.  The overflow check is a `TODO`
in the source: values ≥ 2^16 are silently truncated.  `jump` is never
negative on placeholders produced by `emitJump` (code only grows). -/
def patchJump (offset : Nat) (s : State) : State :=
  let jump : Int := (codeCount s : Int) - (offset : Int) - 2
  withFunction (fun f =>
    let patched := (f.code.set offset ((jump.toNat >>> 8) % 256)).set
      (offset + 1) (jump.toNat % 256)
    { f with code := patched }) s

/-- `beginCompiler(newCompiler)`: push a fresh frame with an empty function,
no locals, scope depth −1. -/
def beginCompiler (s : State) : State :=
  { s with compilers := ⟨newFunction, [], -1⟩ :: s.compilers }

/-- `endCompiler()`: emit the trailing `OP_NULL, OP_RETURN`, pop the frame,
return its function — or `none` when `hadError` is set. -/
def endCompiler (s : State) : State × Option ObjFunction :=
  let s1 := emitBytes OP_NULL OP_RETURN s
  match s1.compilers with
  | [] => (s1, none)
  | c :: cs =>
      ({ s1 with compilers := cs }, if s1.hadError then none else some c.function)

/-- `beginScope()`. -/
def beginScope (s : State) : State :=
  withCompiler (fun c => { c with scopeDepth := c.scopeDepth + 1 }) s

/-- The `while` loop of `endScope`: pop locals whose depth is above the new
scope depth, one `OP_POP` each.  `n` bounds the iterations; it is called
with the current number of locals, which the loop strictly decreases. -/
def endScopePops (n : Nat) (s : State) : State :=
  match n with
  | 0 => s
  | n + 1 =>
      match s.compilers with
      | [] => s
      | c :: _ =>
          match c.locals.getLast? with
          | none => s
          | some l =>
              if c.scopeDepth < l.depth then
                endScopePops n
                  (withCompiler (fun c => { c with locals := c.locals.dropLast })
                    (emitByte OP_POP s))
              else s

/-- `endScope()`: decrement the depth, then discard out-of-scope locals. -/
def endScope (s : State) : State :=
  let s1 := withCompiler (fun c => { c with scopeDepth := c.scopeDepth - 1 }) s
  endScopePops
    (match s1.compilers with
     | [] => 0
     | c :: _ => c.locals.length) s1

/-- VM stack `push(value)` (GC root protection). -/
def push (value : Value) (s : State) : State :=
  { s with vmStack := value :: s.vmStack }

/-- VM stack `pop()`. -/
def pop (s : State) : State × Value :=
  match s.vmStack with
  | [] => (s, Value.vNullPtr)
  | v :: vs => ({ s with vmStack := vs }, v)

/-- `addConstant(value)`: push the value for GC protection, append it to the
pool (`ensureArrayCapacity` is allocation only), pop, and return
`(uint8_t)constants.count` — the count as read AFTER the post-increment. -/
def addConstant (value : Value) (s : State) : State × Nat :=
  let s1 := push value s
  let (s2, v) := pop s1
  let s3 := withFunction (fun f => { f with constants := f.constants ++ [v] }) s2
  (s3, constantsCount s3 % 256)

/-- `nameConstant()`: a string constant from the previous identifier. -/
def nameConstant (s : State) : State × Nat :=
  addConstant (Value.vString s.previous.lexeme) s

/-- `emitConstant(value)`: `OP_CONSTANT` plus the byte `addConstant`
returned. -/
def emitConstant (value : Value) (s : State) : State :=
  let (s1, constant) := addConstant value s
  emitBytes OP_CONSTANT constant s1

/-- The scan of `resolveLocal`, walking the locals from the top
(`localCount − 1`) down; `rest.length` is exactly the index of the entry at
the head of the reversed list. -/
def resolveLocalAux : List Local → Token → Int
  | [], _ => -1
  | l :: rest, name =>
      if l.name.lexeme = name.lexeme then (rest.length : Int)
      else resolveLocalAux rest name

/-- `resolveLocal(name)`: index of the topmost local with the same lexeme,
or −1. -/
def resolveLocal (name : Token) (s : State) : Int :=
  match s.compilers with
  | [] => -1
  | c :: _ => resolveLocalAux c.locals.reverse name

/-- `parseVariable(error, constant)`: consume the identifier; at global scope
also intern its name as a constant (the out-parameter keeps its caller-given
value otherwise, faithfully to the C out-parameter discipline). -/
def parseVariable (err : String) (constantIn : Nat) (s : State) :
    State × Token × Nat :=
  let s1 := consume TokenType.tIdentifier err s
  let name := s1.previous
  match s1.compilers with
  | [] => (s1, name, constantIn)
  | c :: _ =>
      if c.scopeDepth = -1 then
        let (s2, k) := nameConstant s1
        (s2, name, k)
      else (s1, name, constantIn)

/-- The duplicate-declaration diagnostic of compiler.c line 388. -/
def dupLocalMsg : String :=
  "Variable with this name already declared in this scope."

/-- The duplicate scan of `declareVariable` over the reversed locals (top
first): stop at the first entry of an enclosing scope (`depth <
scopeDepth`), report once per same-lexeme entry met before that. -/
def declareScan : List Local → Int → Token → State → State
  | [], _, _, s => s
  | l :: rest, scopeDepth, name, s =>
      if l.depth < scopeDepth then s
      else
        declareScan rest scopeDepth name
          (if l.name.lexeme = name.lexeme then errorAt name.line dupLocalMsg s
           else s)

/-- `declareVariable(name, constant)`: at global scope emit
`OP_DEFINE_GLOBAL constant`; otherwise run the duplicate scan and append the
new local unconditionally (the MAX_LOCALS check is a `TODO` in the
source). -/
def declareVariable (name : Token) (constant : Nat) (s : State) : State :=
  match s.compilers with
  | [] => s
  | c :: _ =>
      if c.scopeDepth = -1 then
        emitBytes OP_DEFINE_GLOBAL constant s
      else
        withCompiler
          (fun c => { c with locals := c.locals ++ [⟨name, c.scopeDepth⟩] })
          (declareScan c.locals.reverse c.scopeDepth name s)

/-- Precedence levels (compiler.c lines 21-33). -/
def PREC_NONE : Nat := 0

def PREC_ASSIGNMENT : Nat := 1

def PREC_OR : Nat := 2

def PREC_AND : Nat := 3

def PREC_EQUALITY : Nat := 4

def PREC_COMPARISON : Nat := 5

def PREC_TERM : Nat := 6

def PREC_FACTOR : Nat := 7

def PREC_UNARY : Nat := 8

def PREC_CALL : Nat := 9

def PREC_PRIMARY : Nat := 10

/-- Identity of a prefix parse handler (the C table stores function
pointers; a sum type dispatched by name is the direct translation). -/
inductive PrefixKind where
  | grouping | unary | number | stringLit | boolean | nullLit | varRef
deriving DecidableEq, Repr

/-- Identity of an infix parse handler. -/
inductive InfixKind where
  | call | binary | andRule | orRule
deriving DecidableEq, Repr

/-- One row of the rule table. -/
structure ParseRule where
  pfx : Option PrefixKind
  ifx : Option InfixKind
  prec : Nat
deriving Repr

/-- `rules[]` / `getRule` (compiler.c lines 424-468, 490-492). -/
def getRule : TokenType → ParseRule
  | .tLeftParen => ⟨some .grouping, some .call, PREC_CALL⟩
  | .tRightParen => ⟨none, none, PREC_NONE⟩
  | .tLeftBracket => ⟨none, none, PREC_NONE⟩
  | .tRightBracket => ⟨none, none, PREC_NONE⟩
  | .tLeftBrace => ⟨none, none, PREC_NONE⟩
  | .tRightBrace => ⟨none, none, PREC_NONE⟩
  | .tBang => ⟨some .unary, none, PREC_NONE⟩
  | .tBangEqual => ⟨none, some .binary, PREC_EQUALITY⟩
  | .tComma => ⟨none, none, PREC_NONE⟩
  | .tDot => ⟨none, none, PREC_NONE⟩
  | .tEqual => ⟨none, none, PREC_NONE⟩
  | .tEqualEqual => ⟨none, some .binary, PREC_EQUALITY⟩
  | .tGreater => ⟨none, some .binary, PREC_COMPARISON⟩
  | .tGreaterEqual => ⟨none, some .binary, PREC_COMPARISON⟩
  | .tLess => ⟨none, some .binary, PREC_COMPARISON⟩
  | .tLessEqual => ⟨none, some .binary, PREC_COMPARISON⟩
  | .tMinus => ⟨some .unary, some .binary, PREC_TERM⟩
  | .tPlus => ⟨none, some .binary, PREC_TERM⟩
  | .tSemicolon => ⟨none, none, PREC_NONE⟩
  | .tSlash => ⟨none, some .binary, PREC_FACTOR⟩
  | .tStar => ⟨none, some .binary, PREC_FACTOR⟩
  | .tIdentifier => ⟨some .varRef, none, PREC_NONE⟩
  | .tStringTok => ⟨some .stringLit, none, PREC_NONE⟩
  | .tNumber => ⟨some .number, none, PREC_NONE⟩
  | .tAnd => ⟨none, some .andRule, PREC_AND⟩
  | .tClass => ⟨none, none, PREC_NONE⟩
  | .tElse => ⟨none, none, PREC_NONE⟩
  | .tFalse => ⟨some .boolean, none, PREC_NONE⟩
  | .tFun => ⟨none, none, PREC_NONE⟩
  | .tFor => ⟨none, none, PREC_NONE⟩
  | .tIf => ⟨none, none, PREC_NONE⟩
  | .tNull => ⟨some .nullLit, none, PREC_NONE⟩
  | .tOr => ⟨none, some .orRule, PREC_OR⟩
  | .tReturn => ⟨none, none, PREC_NONE⟩
  | .tThis => ⟨none, none, PREC_NONE⟩
  | .tTrue => ⟨some .boolean, none, PREC_NONE⟩
  | .tVar => ⟨none, none, PREC_NONE⟩
  | .tWhile => ⟨none, none, PREC_NONE⟩
  | .tError => ⟨none, none, PREC_NONE⟩
  | .tEof => ⟨none, none, PREC_NONE⟩

/-- `boolean(canAssign)`: a boolean constant from the previous token. -/
def boolean (s : State) : State :=
  emitConstant (Value.vBool (s.previous.type = TokenType.tTrue)) s

/-- `number(canAssign)`: the previous numeral as a constant.  The external
`strtod` conversion keeps the numeral abstract as its lexeme. -/
def number (s : State) : State :=
  emitConstant (Value.vNumber s.previous.lexeme) s

/-- `string(canAssign)`: the previous string literal with the surrounding
quotes stripped (`start + 1`, `length − 2`). -/
def stringLit (s : State) : State :=
  emitConstant
    (Value.vString (String.mk ((s.previous.lexeme.toList.drop 1).dropLast))) s

/-- `null_(canAssign)`: just `OP_NULL`. -/
def nullLit (s : State) : State :=
  emitByte OP_NULL s

mutual

/-- `parsePrecedence(precedence)` (compiler.c lines 471-488).  `fuel` bounds
the recursion depth; every run of the source terminates, and every theorem
below either fixes a concrete fuel or holds for all fuels. -/
def parsePrecedence (fuel : Nat) (precedence : Nat) (s : State) : State :=
  match fuel with
  | 0 => s
  | n + 1 =>
      let s1 := advance s
      match (getRule s1.previous.type).pfx with
      | none => error "Expected expression.\n" s1
      | some pk =>
          let canAssign := decide (precedence ≤ PREC_ASSIGNMENT)
          infixLoop n precedence canAssign (runPfx n pk canAssign s1)

/-- The `while` loop at the end of `parsePrecedence`. -/
def infixLoop (fuel : Nat) (precedence : Nat) (canAssign : Bool) (s : State) :
    State :=
  match fuel with
  | 0 => s
  | n + 1 =>
      if precedence ≤ (getRule s.current.type).prec then
        let s1 := advance s
        match (getRule s1.previous.type).ifx with
        | some ik => infixLoop n precedence canAssign (runIfx n ik canAssign s1)
        -- a NULL infix pointer is never reached: every rule whose
        -- precedence is above PREC_NONE carries an infix handler
        | none => s1
      else s

/-- Dispatch on a prefix handler identity. -/
def runPfx (fuel : Nat) (pk : PrefixKind) (canAssign : Bool) (s : State) :
    State :=
  match fuel with
  | 0 => s
  | n + 1 =>
      match pk with
      | .grouping => grouping n s
      | .unary => unary n s
      | .number => number s
      | .stringLit => stringLit s
      | .boolean => boolean s
      | .nullLit => nullLit s
      | .varRef => varRef n canAssign s

/-- Dispatch on an infix handler identity. -/
def runIfx (fuel : Nat) (ik : InfixKind) (canAssign : Bool) (s : State) :
    State :=
  match fuel with
  | 0 => s
  | n + 1 =>
      match ik with
      | .call => call n s
      | .binary => binary n s
      | .andRule => andRule n s
      | .orRule => orRule n s

/-- `grouping(canAssign)`. -/
def grouping (fuel : Nat) (s : State) : State :=
  match fuel with
  | 0 => s
  | n + 1 =>
      consume TokenType.tRightParen "Expect \x27)\x27 after expression."
        (expression n s)

/-- `unary(canAssign)`: the operator token is read before compiling the
operand; the unreachable default of the C switch leaves the state as is. -/
def unary (fuel : Nat) (s : State) : State :=
  match fuel with
  | 0 => s
  | n + 1 =>
      let operatorType := s.previous.type
      let s1 := parsePrecedence n (PREC_UNARY + 1) s
      match operatorType with
      | .tBang => emitByte OP_NOT s1
      | .tMinus => emitByte OP_NEGATE s1
      | _ => s1

/-- `binary(canAssign)` (compiler.c lines 249-271). -/
def binary (fuel : Nat) (s : State) : State :=
  match fuel with
  | 0 => s
  | n + 1 =>
      let operatorType := s.previous.type
      let rule := getRule operatorType
      let s1 := parsePrecedence n (rule.prec + 1) s
      match operatorType with
      | .tBangEqual => emitBytes OP_EQUAL OP_NOT s1
      | .tEqualEqual => emitByte OP_EQUAL s1
      | .tGreater => emitByte OP_GREATER s1
      | .tGreaterEqual => emitBytes OP_LESS OP_NOT s1
      | .tLess => emitByte OP_LESS s1
      | .tLessEqual => emitBytes OP_GREATER OP_NOT s1
      | .tPlus => emitByte OP_ADD s1
      | .tMinus => emitByte OP_SUBTRACT s1
      | .tStar => emitByte OP_MULTIPLY s1
      | .tSlash => emitByte OP_DIVIDE s1
      | _ => s1

/-- `variable(canAssign)` (compiler.c lines 400-422).  The C condition
`canAssign && match(TOKEN_EQUAL)` short-circuits, so `match` (and its
token consumption) only runs when `canAssign` holds. -/
def varRef (fuel : Nat) (canAssign : Bool) (s : State) : State :=
  match fuel with
  | 0 => s
  | n + 1 =>
      let localIdx := resolveLocal s.previous s
      if localIdx ≠ -1 then
        if canAssign then
          let (s1, m) := matchToken TokenType.tEqual s
          if m then
            emitBytes OP_SET_LOCAL (localIdx.toNat % 256) (expression n s1)
          else emitBytes OP_GET_LOCAL (localIdx.toNat % 256) s1
        else emitBytes OP_GET_LOCAL (localIdx.toNat % 256) s
      else
        let (s1, constant) := nameConstant s
        if canAssign then
          let (s2, m) := matchToken TokenType.tEqual s1
          if m then emitBytes OP_SET_GLOBAL constant (expression n s2)
          else emitBytes OP_GET_GLOBAL constant s2
        else emitBytes OP_GET_GLOBAL constant s1

/-- `call(canAssign)` (compiler.c lines 277-289): `argCount` is a `uint8_t`
(hence `% 256` at the increment, the overflow check being a `TODO`). -/
def call (fuel : Nat) (s : State) : State :=
  match fuel with
  | 0 => s
  | n + 1 =>
      let (s1, argCount) :=
        if check TokenType.tRightParen s then (s, 0) else callArgs n 0 s
      let s2 := consume TokenType.tRightParen
        "Expect \x27)\x27 after arguments." s1
      emitByte (OP_CALL_0 + argCount) s2

/-- The argument `do … while (match(TOKEN_COMMA))` loop of `call`. -/
def callArgs (fuel : Nat) (argCount : Nat) (s : State) : State × Nat :=
  match fuel with
  | 0 => (s, argCount)
  | n + 1 =>
      let s1 := expression n s
      let argCount1 := (argCount + 1) % 256
      let (s2, m) := matchToken TokenType.tComma s1
      if m then callArgs n argCount1 s2 else (s2, argCount1)

/-- `and_(canAssign)` (compiler.c lines 231-247). -/
def andRule (fuel : Nat) (s : State) : State :=
  match fuel with
  | 0 => s
  | n + 1 =>
      let (s1, endJump) := emitJump OP_JUMP_IF_FALSE s
      let s2 := emitByte OP_POP s1
      patchJump endJump (parsePrecedence n PREC_AND s2)

/-- `or_(canAssign)` (compiler.c lines 306-329). -/
def orRule (fuel : Nat) (s : State) : State :=
  match fuel with
  | 0 => s
  | n + 1 =>
      let (s1, elseJump) := emitJump OP_JUMP_IF_FALSE s
      let (s2, endJump) := emitJump OP_JUMP s1
      let s3 := emitByte OP_POP (patchJump elseJump s2)
      patchJump endJump (parsePrecedence n PREC_OR s3)

/-- `expression()`. -/
def expression (fuel : Nat) (s : State) : State :=
  match fuel with
  | 0 => s
  | n + 1 => parsePrecedence n PREC_ASSIGNMENT s

/-- `block()` (compiler.c lines 498-506). -/
def block (fuel : Nat) (s : State) : State :=
  match fuel with
  | 0 => s
  | n + 1 =>
      let s1 := consume TokenType.tLeftBrace
        "Expect \x27\x7b\x27 before block." s
      consume TokenType.tRightBrace "Expect \x27\x7d\x27 after block."
        (blockLoop n s1)

/-- The statement loop of `block`. -/
def blockLoop (fuel : Nat) (s : State) : State :=
  match fuel with
  | 0 => s
  | n + 1 =>
      if !check TokenType.tRightBrace s && !check TokenType.tEof s then
        blockLoop n (statement n s)
      else s

/-- `funStatement()` (compiler.c lines 508-539).  Note the order: the body's
scope ends (popping the parameters) and the inner compiler ends before the
function value is interned in the enclosing function and its name is
declared. -/
def funStatement (fuel : Nat) (s : State) : State :=
  match fuel with
  | 0 => s
  | n + 1 =>
      let (s1, name, nameK) := parseVariable "Expect function name." 0xff s
      let s2 := beginScope (beginCompiler s1)
      let s3 := consume TokenType.tLeftParen
        "Expect \x27(\x27 after function name." s2
      let s4 := if check TokenType.tRightParen s3 then s3 else paramLoop n s3
      let s5 := consume TokenType.tRightParen
        "Expect \x27)\x27 after parameters." s4
      let s6 := endScope (block n s5)
      let (s7, fnOpt) := endCompiler s6
      declareVariable name nameK (emitConstant (fnValue fnOpt) s7)

/-- The parameter `do … while (match(TOKEN_COMMA))` loop of `funStatement`.
The C out-parameter `paramConstant` is uninitialised at local scope and
unused there; `0xff` stands in for the indeterminate byte. -/
def paramLoop (fuel : Nat) (s : State) : State :=
  match fuel with
  | 0 => s
  | n + 1 =>
      let (s1, param, paramK) := parseVariable "Expect parameter name." 0xff s
      let s2 := declareVariable param paramK s1
      let s3 := withFunction (fun f => { f with arity := f.arity + 1 }) s2
      let (s4, m) := matchToken TokenType.tComma s3
      if m then paramLoop n s4 else s4

/-- `ifStatement()` (compiler.c lines 541-566). -/
def ifStatement (fuel : Nat) (s : State) : State :=
  match fuel with
  | 0 => s
  | n + 1 =>
      let s1 := consume TokenType.tLeftParen
        "Expect \x27(\x27 after \x27if\x27." s
      let s2 := expression n s1
      let s3 := consume TokenType.tRightParen
        "Expect \x27)\x27 after condition." s2
      let s4 := beginScope s3
      let (s5, elseJump) := emitJump OP_JUMP_IF_FALSE s4
      let s6 := statement n (emitByte OP_POP s5)
      let (s7, endJump) := emitJump OP_JUMP s6
      let s8 := emitByte OP_POP (patchJump elseJump s7)
      let (s9, m) := matchToken TokenType.tElse s8
      let s10 := if m then statement n s9 else s9
      endScope (patchJump endJump s10)

/-- `returnStatement()` (compiler.c lines 568-577). -/
def returnStatement (fuel : Nat) (s : State) : State :=
  match fuel with
  | 0 => s
  | n + 1 =>
      let (s1, m) := matchToken TokenType.tSemicolon s
      if m then emitByte OP_RETURN (emitByte OP_NULL s1)
      else
        let s2 := expression n s1
        emitByte OP_RETURN
          (consume TokenType.tSemicolon
            "Expect \x27;\x27 after return value." s2)

/-- `varStatement()` (compiler.c lines 579-589). -/
def varStatement (fuel : Nat) (s : State) : State :=
  match fuel with
  | 0 => s
  | n + 1 =>
      let (s1, name, k) := parseVariable "Expect variable name." 0xff s
      let s2 := consume TokenType.tEqual
        "Expect \x27=\x27 after variable name." s1
      let s3 := expression n s2
      declareVariable name k
        (consume TokenType.tSemicolon "Expect \x27;\x27 after initializer." s3)

/-- `whileStatement()` (compiler.c lines 591-612); the `'('` message really
does say "after \x27if\x27" in the source. -/
def whileStatement (fuel : Nat) (s : State) : State :=
  match fuel with
  | 0 => s
  | n + 1 =>
      let loopStart := codeCount s
      let s1 := consume TokenType.tLeftParen
        "Expect \x27(\x27 after \x27if\x27." s
      let s2 := expression n s1
      let s3 := consume TokenType.tRightParen
        "Expect \x27)\x27 after condition." s2
      let s4 := beginScope s3
      let (s5, exitJump) := emitJump OP_JUMP_IF_FALSE s4
      let s6 := statement n (emitByte OP_POP s5)
      let s7 := emitLoop loopStart s6
      endScope (patchJump exitJump s7)

/-- `statement()` (compiler.c lines 614-636). -/
def statement (fuel : Nat) (s : State) : State :=
  match fuel with
  | 0 => s
  | n + 1 =>
      let (s1, mFun) := matchToken TokenType.tFun s
      if mFun then funStatement n s1
      else
        let (s2, mIf) := matchToken TokenType.tIf s1
        if mIf then ifStatement n s2
        else
          let (s3, mRet) := matchToken TokenType.tReturn s2
          if mRet then returnStatement n s3
          else
            let (s4, mVar) := matchToken TokenType.tVar s3
            if mVar then varStatement n s4
            else
              let (s5, mWhile) := matchToken TokenType.tWhile s4
              if mWhile then whileStatement n s5
              else
                if check TokenType.tLeftBrace s5 then
                  endScope (block n (beginScope s5))
                else
                  let s6 := emitByte OP_POP (expression n s5)
                  consume TokenType.tSemicolon
                    "Expect \x27;\x27 after expression." s6

/-- The `do { statement(); } while (!match(TOKEN_EOF))` loop of `compile`. -/
def stmtLoop (fuel : Nat) (s : State) : State :=
  match fuel with
  | 0 => s
  | n + 1 =>
      let s1 := statement n s
      let (s2, m) := matchToken TokenType.tEof s1
      if m then s2 else stmtLoop n s2

end

/-- The initial global state: `initScanner(source)` plus the indeterminate
initial `parser.previous`/`parser.current` (EOF dummies). -/
def initState (tokens : List Token) : State :=
  { tokens := tokens, current := eofToken, previous := eofToken,
    hadError := false, errors := [], vmStack := [], compilers := [] }

/-- `compile(source)` (compiler.c lines 638-655), over the modelled token
stream. -/
def compile (fuel : Nat) (tokens : List Token) : State × Option ObjFunction :=
  let s0 := beginCompiler (initState tokens)
  let s1 := advance { s0 with hadError := false }
  let (s2, m) := matchToken TokenType.tEof s1
  endCompiler (if m then s2 else stmtLoop fuel s2)

/-! ## Projections and invariant predicates used by the claims -/

/-- The innermost frame's code (`compiler->function->code`). -/
def curCode (s : State) : List Nat :=
  match s.compilers with
  | [] => []
  | c :: _ => c.function.code

/-- The innermost frame's line table. -/
def curLines (s : State) : List Nat :=
  match s.compilers with
  | [] => []
  | c :: _ => c.function.codeLines

/-- The innermost frame's constant pool. -/
def curConstants (s : State) : List Value :=
  match s.compilers with
  | [] => []
  | c :: _ => c.function.constants

/-- The innermost frame's locals table. -/
def curLocals (s : State) : List Local :=
  match s.compilers with
  | [] => []
  | c :: _ => c.locals

/-- The code ends with the two bytes `OP_NULL, OP_RETURN`. -/
def endsNullReturn (code : List Nat) : Bool :=
  match code.reverse with
  | r :: n :: _ => (n == OP_NULL) && (r == OP_RETURN)
  | _ => false

mutual

/-- A completed function value ends in `OP_NULL, OP_RETURN`, and so does
every function value interned in its constant pool, transitively; values of
the other kinds carry no code. -/
def valueEndsOk : Value → Bool
  | Value.vFunction code _ constants _ =>
      endsNullReturn code && valuesEndOk constants
  | _ => true

/-- `valueEndsOk` on every element of a constant pool. -/
def valuesEndOk : List Value → Bool
  | [] => true
  | v :: vs => valueEndsOk v && valuesEndOk vs

end

/-- The per-frame invariant: the code and line sequences stay parallel, and
every completed function already interned in the pool is well-ended. -/
def compilerOk (c : Compiler) : Bool :=
  (c.function.code.length == c.function.codeLines.length) &&
    valuesEndOk c.function.constants

/-- `compilerOk` on every frame of the compiler chain. -/
def stackOk : List Compiler → Bool
  | [] => true
  | c :: cs => compilerOk c && stackOk cs

/-- The whole-state invariant carried through the compilation. -/
def stateOk (s : State) : Bool :=
  stackOk s.compilers

/-- The code of the (unique) nested function in a compile result whose
constant pool holds it at index 1 — the shape of the `fun f(a, b) …`
scenario. -/
def innerCodeOf (r : Option ObjFunction) : Option (List Nat) :=
  match r with
  | some f =>
      match f.constants[1]? with
      | some (Value.vFunction code _ _ _) => some code
      | _ => none
  | none => none

/-! ## Concrete inputs for the claims -/

/-- A token on line 1. -/
def tok (t : TokenType) (lx : String) : Token := ⟨t, lx, 1⟩

/-- Modelled from the spec: the token stream the scanner (§6, not part of
the given source) produces for `fun f(a, b) \x7b return a + b; \x7d f(1, 2);`,
all on line 1. -/
def c3Tokens : List Token :=
  [tok .tFun "fun", tok .tIdentifier "f", tok .tLeftParen "(",
   tok .tIdentifier "a", tok .tComma ",", tok .tIdentifier "b",
   tok .tRightParen ")", tok .tLeftBrace "\x7b", tok .tReturn "return",
   tok .tIdentifier "a", tok .tPlus "+", tok .tIdentifier "b",
   tok .tSemicolon ";", tok .tRightBrace "\x7d",
   tok .tIdentifier "f", tok .tLeftParen "(", tok .tNumber "1",
   tok .tComma ",", tok .tNumber "2", tok .tRightParen ")",
   tok .tSemicolon ";", tok .tEof ""]

/-- The body bytecode C3 claims for the inner function. -/
def c3ClaimedInnerCode : List Nat :=
  [OP_GET_LOCAL, 0, OP_GET_LOCAL, 1, OP_ADD, OP_RETURN, OP_NULL, OP_RETURN]

/-- A state with one frame whose function has an empty constant pool. -/
def emptyPoolState : State := beginCompiler (initState [])

/-- A state whose current function already holds 256 constants — the pool
capacity limit named by the spec. -/
def fullPoolState : State :=
  { initState [] with
    compilers := [⟨⟨[], [], List.replicate 256 (Value.vBool true), 0⟩, [], -1⟩] }

/-- A state whose current frame already holds 256 locals (MAX_LOCALS), all
named `x` at depth 0, with the frame inside a local scope. -/
def fullLocalsState : State :=
  { initState [] with
    compilers :=
      [⟨newFunction, List.replicate 256 ⟨tok .tIdentifier "x", 0⟩, 0⟩] }

/-- A state for the `patchJump` witness: a four-byte function
`OP_JUMP ff ff OP_POP` whose placeholder sits at offset 1. -/
def patchState : State :=
  { initState [] with
    compilers := [⟨⟨[OP_JUMP, 0xff, 0xff, OP_POP], [1, 1, 1, 1], [], 0⟩, [], -1⟩] }

/-- A state for the `emitLoop` witness: one byte of code, loop start 0. -/
def loopState : State :=
  { initState [] with
    compilers := [⟨⟨[OP_POP], [1], [], 0⟩, [], -1⟩] }

/-- A state for the declaration witnesses: a local scope (depth 0) already
holding a local `a` declared at depth 0, so declaring `a` again is a
same-scope duplicate. -/
def dupState : State :=
  { initState [] with
    compilers := [⟨newFunction, [⟨⟨.tIdentifier, "a", 3⟩, 0⟩], 0⟩] }

/-- The second declaration's name token for the duplicate witness. -/
def dupName : Token := ⟨.tIdentifier, "a", 7⟩

/-- The outer function the compiler produces for `c3Tokens` (the inner
function sits at pool index 1). -/
def c3OuterFn : ObjFunction :=
  ⟨[OP_CONSTANT, 2, OP_DEFINE_GLOBAL, 1, OP_GET_GLOBAL, 3, OP_CONSTANT, 4,
    OP_CONSTANT, 5, OP_CALL_0 + 2, OP_POP, OP_NULL, OP_RETURN],
   [1, 1, 1, 1, 1, 1, 1, 1, 1, 1, 1, 1, 1, 1],
   [Value.vString "f",
    Value.vFunction
      [OP_GET_LOCAL, 0, OP_GET_LOCAL, 1, OP_ADD, OP_RETURN,
       OP_POP, OP_POP, OP_NULL, OP_RETURN]
      [1, 1, 1, 1, 1, 1, 1, 1, 1, 1] [] 2,
    Value.vString "f", Value.vNumber "1", Value.vNumber "2"],
   0⟩

/-! ## Theorems -/

/-! ### Helper lemmas -/

theorem compilers_advance (s : State) : (advance s).compilers = s.compilers := by
  unfold advance scanToken
  cases s.tokens <;> rfl

theorem previous_emitByte (b : Nat) (s : State) :
    (emitByte b s).previous = s.previous := by
  unfold emitByte withFunction withCompiler
  cases s.compilers <;> rfl

theorem compilers_emitByte (b : Nat) (s : State) (c : Compiler)
    (cs : List Compiler) (h : s.compilers = c :: cs) :
    (emitByte b s).compilers =
      { c with function :=
          { c.function with
            code := c.function.code ++ [b % 256],
            codeLines := c.function.codeLines ++ [s.previous.line] } } :: cs := by
  unfold emitByte withFunction withCompiler
  rw [h]

theorem errors_withCompiler (f : Compiler → Compiler) (s : State) :
    (withCompiler f s).errors = s.errors := by
  unfold withCompiler
  cases s.compilers <;> rfl

theorem compilers_errorAt (line : Nat) (msg : String) (s : State) :
    (errorAt line msg s).compilers = s.compilers := rfl

/-- What the duplicate scan of `declareVariable` does to the state: it
appends one diagnostic `(name.line, dupLocalMsg)` per same-lexeme entry met
before the first entry of an enclosing scope, and touches nothing else. -/
theorem declareScan_state (ls : List Local) (sd : Int) (name : Token)
    (s : State) :
    (declareScan ls sd name s).errors =
      s.errors ++
        (((ls.takeWhile (fun l => !decide (l.depth < sd))).filter
            (fun l => l.name.lexeme == name.lexeme)).map
          (fun _ => (name.line, dupLocalMsg))) ∧
    (declareScan ls sd name s).compilers = s.compilers := by
  induction ls generalizing s with
  | nil => simp [declareScan]
  | cons l rest ih =>
      unfold declareScan
      by_cases hd : l.depth < sd
      · simp [hd, List.takeWhile_cons]
      · by_cases hx : l.name.lexeme = name.lexeme
        · obtain ⟨ihe, ihc⟩ := ih (errorAt name.line dupLocalMsg s)
          refine ⟨?_, ?_⟩
          · rw [if_neg hd, if_pos hx, ihe]
            simp [errorAt, List.takeWhile_cons, hd, hx]
          · rw [if_neg hd, if_pos hx, ihc, compilers_errorAt]
        · obtain ⟨ihe, ihc⟩ := ih s
          refine ⟨?_, ?_⟩
          · rw [if_neg hd, if_neg hx, ihe]
            simp [List.takeWhile_cons, hd, hx]
          · rw [if_neg hd, if_neg hx, ihc]

theorem codeCount_curCode (s : State) : codeCount s = (curCode s).length := by
  unfold codeCount curCode
  cases s.compilers <;> rfl

theorem curCode_compilers (s : State) (c : Compiler) (cs : List Compiler)
    (h : s.compilers = c :: cs) : curCode s = c.function.code := by
  unfold curCode
  rw [h]

/-- C1: the claim says `add_constant(value)` returns the pool index at which
`value` was just appended, i.e. the pool's length before the append.  The
code returns `(uint8_t)constants.count` read AFTER the post-increment: on an
empty pool the value lands at index 0 yet 1 is returned, and
`emit_constant` therefore emits `OP_CONSTANT` followed by that off-by-one
byte — contradicting the code's own comment "Returns the index of the
constant" (compiler.c line 220). -/
theorem addConstant_returns_post_increment_count :
    constantsCount emptyPoolState = 0 ∧
    (addConstant (Value.vNumber "7") emptyPoolState).2 = 1 ∧
    curConstants (addConstant (Value.vNumber "7") emptyPoolState).1 =
      [Value.vNumber "7"] ∧
    curCode (emitConstant (Value.vNumber "7") emptyPoolState) =
      [OP_CONSTANT, 1] :=
  ⟨rfl, rfl, rfl, rfl⟩

set_option maxRecDepth 8000

/-- C2: the claim says every exceeded capacity limit is reported and sets
`had_error`.  The code's checks are `TODO`s: a 257th constant is appended
with the returned byte silently wrapped to 1; a 257th local is appended
without complaint; and `patchJump` — for every state, hence in particular
when the jump distance exceeds 65 535 and the written bytes are the
truncated low 16 bits — reports nothing and leaves `had_error` alone. -/
theorem overflow_checks_missing :
    ((addConstant (Value.vBool false) fullPoolState).2 = 1 ∧
     constantsCount (addConstant (Value.vBool false) fullPoolState).1 = 257 ∧
     (addConstant (Value.vBool false) fullPoolState).1.hadError = false ∧
     (addConstant (Value.vBool false) fullPoolState).1.errors = []) ∧
    ((curLocals (declareVariable (tok .tIdentifier "y") 0 fullLocalsState)).length
        = 257 ∧
     (declareVariable (tok .tIdentifier "y") 0 fullLocalsState).hadError
        = false ∧
     (declareVariable (tok .tIdentifier "y") 0 fullLocalsState).errors = []) ∧
    (∀ offset : Nat, ∀ s : State,
     (patchJump offset s).hadError = s.hadError ∧
     (patchJump offset s).errors = s.errors) :=
  ⟨⟨rfl, rfl, rfl, rfl⟩, ⟨rfl, rfl, rfl⟩,
   fun _ s => by
    rcases s with ⟨tks, cur, prv, he, errs, vm, comps⟩
    cases comps <;> exact ⟨rfl, rfl⟩⟩

/-- C3, counterexample: compiling
`fun f(a, b) \x7b return a + b; \x7d f(1, 2);` does NOT give the inner
function the claimed body `GET_LOCAL 0, GET_LOCAL 1, ADD, RETURN, NULL,
RETURN`: `funStatement` runs `endScope()` before `endCompiler()`, so two
`OP_POP`s for the parameters land between `RETURN` and the trailing `NULL,
RETURN`. -/
theorem c3_inner_body_counterexample :
    innerCodeOf (compile 50 c3Tokens).2 ≠ some c3ClaimedInnerCode := by
  decide

/-- C3, amended: the inner body is `GET_LOCAL 0, GET_LOCAL 1, ADD, RETURN,
POP, POP, NULL, RETURN`, and the outer body is `CONSTANT 2,
DEFINE_GLOBAL 1, GET_GLOBAL 3, CONSTANT 4, CONSTANT 5, CALL_2, POP, NULL,
RETURN`, where each constant operand is one more than the pool position of
the constant it belongs to (`addConstant` returns the post-increment
count): the inner function sits at pool index 1, the numerals 1 and 2 at
indices 3 and 4. -/
theorem c3_compile_fun_example :
    (compile 50 c3Tokens).2 = some
      ⟨[OP_CONSTANT, 2, OP_DEFINE_GLOBAL, 1, OP_GET_GLOBAL, 3, OP_CONSTANT, 4,
        OP_CONSTANT, 5, OP_CALL_0 + 2, OP_POP, OP_NULL, OP_RETURN],
       [1, 1, 1, 1, 1, 1, 1, 1, 1, 1, 1, 1, 1, 1],
       [Value.vString "f",
        Value.vFunction
          [OP_GET_LOCAL, 0, OP_GET_LOCAL, 1, OP_ADD, OP_RETURN,
           OP_POP, OP_POP, OP_NULL, OP_RETURN]
          [1, 1, 1, 1, 1, 1, 1, 1, 1, 1] [] 2,
        Value.vString "f", Value.vNumber "1", Value.vNumber "2"],
       0⟩ := by
  rfl

/-! ### Preservation of the state invariant by the primitives -/

theorem stateOk_of_compilers_eq {s t : State} (h : t.compilers = s.compilers) :
    stateOk t = stateOk s := by
  unfold stateOk
  rw [h]

theorem compilers_error (msg : String) (s : State) :
    (error msg s).compilers = s.compilers := rfl

theorem compilers_consume (t : TokenType) (msg : String) (s : State) :
    (consume t msg s).compilers = s.compilers := by
  unfold consume
  rw [compilers_advance]
  split <;> rfl

theorem compilers_matchToken_fst (t : TokenType) (s : State) :
    ((matchToken t s).1).compilers = s.compilers := by
  unfold matchToken
  split
  · exact compilers_advance s
  · rfl

theorem previous_matchToken_fst (t : TokenType) (s : State) :
    ((matchToken t s).1).previous =
      if check t s then s.current else s.previous := by
  unfold matchToken advance scanToken
  split <;> cases s.tokens <;> rfl

theorem stateOk_emitByte (b : Nat) (s : State) (h : stateOk s = true) :
    stateOk (emitByte b s) = true := by
  unfold stateOk at *
  unfold emitByte withFunction withCompiler
  cases hcs : s.compilers with
  | nil => rw [hcs] at h; simpa [hcs] using h
  | cons c cs =>
      rw [hcs] at h
      simp only [stackOk, compilerOk, Bool.and_eq_true, beq_iff_eq] at h ⊢
      obtain ⟨⟨hlen, hvals⟩, hrest⟩ := h
      exact ⟨⟨by simp [hlen], hvals⟩, hrest⟩

theorem stateOk_emitBytes (b1 b2 : Nat) (s : State) (h : stateOk s = true) :
    stateOk (emitBytes b1 b2 s) = true :=
  stateOk_emitByte b2 _ (stateOk_emitByte b1 s h)

theorem stateOk_patchJump (offset : Nat) (s : State) (h : stateOk s = true) :
    stateOk (patchJump offset s) = true := by
  unfold stateOk at *
  unfold patchJump withFunction withCompiler
  cases hcs : s.compilers with
  | nil => rw [hcs] at h; simpa [hcs] using h
  | cons c cs =>
      rw [hcs] at h
      simp only [stackOk, compilerOk, Bool.and_eq_true, beq_iff_eq] at h ⊢
      obtain ⟨⟨hlen, hvals⟩, hrest⟩ := h
      exact ⟨⟨by simp [hlen], hvals⟩, hrest⟩

theorem stateOk_emitJump_fst (op : Nat) (s : State) (h : stateOk s = true) :
    stateOk ((emitJump op s).1) = true :=
  stateOk_emitByte _ _ (stateOk_emitByte _ _ (stateOk_emitByte op s h))

theorem stateOk_emitLoop (loopStart : Nat) (s : State) (h : stateOk s = true) :
    stateOk (emitLoop loopStart s) = true :=
  stateOk_emitByte _ _ (stateOk_emitByte _ _ (stateOk_emitByte OP_LOOP s h))

theorem stateOk_beginCompiler (s : State) (h : stateOk s = true) :
    stateOk (beginCompiler s) = true := by
  unfold stateOk at *
  unfold beginCompiler
  simpa [stackOk, compilerOk, newFunction, valuesEndOk] using h

/-- Any frame update that does not change `compilerOk` (scope bookkeeping,
locals, arity) keeps the state invariant. -/
theorem stateOk_withCompiler_of (g : Compiler → Compiler)
    (hg : ∀ c, compilerOk (g c) = compilerOk c) (s : State)
    (h : stateOk s = true) : stateOk (withCompiler g s) = true := by
  unfold stateOk withCompiler at *
  split
  · exact h
  · next c cs hcs =>
      rw [hcs] at h
      simp only [stackOk, Bool.and_eq_true] at h ⊢
      exact ⟨by rw [hg c]; exact h.1, h.2⟩

theorem stateOk_beginScope (s : State) (h : stateOk s = true) :
    stateOk (beginScope s) = true := by
  unfold beginScope
  exact stateOk_withCompiler_of
    (fun c => { c with scopeDepth := c.scopeDepth + 1 }) (fun _ => rfl) s h

theorem stateOk_endScopePops (n : Nat) (s : State) (h : stateOk s = true) :
    stateOk (endScopePops n s) = true := by
  induction n generalizing s with
  | zero => exact h
  | succ n ih =>
      unfold endScopePops
      split
      · exact h
      · split
        · exact h
        · split
          · exact ih _ (stateOk_withCompiler_of
              (fun c => { c with locals := c.locals.dropLast }) (fun _ => rfl) _
              (stateOk_emitByte OP_POP s h))
          · exact h

theorem stateOk_endScope (s : State) (h : stateOk s = true) :
    stateOk (endScope s) = true := by
  unfold endScope
  exact stateOk_endScopePops _ _ (stateOk_withCompiler_of
    (fun c => { c with scopeDepth := c.scopeDepth - 1 }) (fun _ => rfl) s h)

theorem valuesEndOk_append (xs ys : List Value) :
    valuesEndOk (xs ++ ys) = (valuesEndOk xs && valuesEndOk ys) := by
  induction xs with
  | nil => simp [valuesEndOk]
  | cons v vs ih => simp [valuesEndOk, ih, Bool.and_assoc]

theorem stateOk_addConstant_fst (v : Value) (s : State)
    (h : stateOk s = true) (hv : valueEndsOk v = true) :
    stateOk ((addConstant v s).1) = true := by
  unfold stateOk at *
  unfold addConstant push pop withFunction withCompiler
  cases hcs : s.compilers with
  | nil => rw [hcs] at h; simpa [hcs] using h
  | cons c cs =>
      rw [hcs] at h
      simp only [stackOk, compilerOk, Bool.and_eq_true, beq_iff_eq] at h ⊢
      obtain ⟨⟨hlen, hvals⟩, hrest⟩ := h
      refine ⟨⟨hlen, ?_⟩, hrest⟩
      rw [valuesEndOk_append]
      simp [hvals, valuesEndOk, hv]

theorem stateOk_nameConstant_fst (s : State) (h : stateOk s = true) :
    stateOk ((nameConstant s).1) = true :=
  stateOk_addConstant_fst _ s h rfl

theorem stateOk_emitConstant (v : Value) (s : State)
    (h : stateOk s = true) (hv : valueEndsOk v = true) :
    stateOk (emitConstant v s) = true :=
  stateOk_emitByte _ _
    (stateOk_emitByte _ _ (stateOk_addConstant_fst v s h hv))

theorem stateOk_consume (t : TokenType) (msg : String) (s : State)
    (h : stateOk s = true) : stateOk (consume t msg s) = true := by
  rw [stateOk_of_compilers_eq (compilers_consume t msg s)]
  exact h

theorem stateOk_advance (s : State) (h : stateOk s = true) :
    stateOk (advance s) = true := by
  rw [stateOk_of_compilers_eq (compilers_advance s)]
  exact h

theorem stateOk_matchToken_fst (t : TokenType) (s : State)
    (h : stateOk s = true) : stateOk ((matchToken t s).1) = true := by
  rw [stateOk_of_compilers_eq (compilers_matchToken_fst t s)]
  exact h

theorem stateOk_parseVariable_fst (msg : String) (k : Nat) (s : State)
    (h : stateOk s = true) : stateOk ((parseVariable msg k s).1) = true := by
  have h1 := stateOk_consume TokenType.tIdentifier msg s h
  simp only [parseVariable]
  split
  · exact h1
  · split
    · exact stateOk_nameConstant_fst _ h1
    · exact h1

theorem stateOk_declareVariable (name : Token) (k : Nat) (s : State)
    (h : stateOk s = true) : stateOk (declareVariable name k s) = true := by
  unfold declareVariable
  split
  · exact h
  · next c cs hcs =>
      split
      · exact stateOk_emitBytes _ _ s h
      · refine stateOk_withCompiler_of
          (fun c => { c with locals := c.locals ++ [⟨name, c.scopeDepth⟩] })
          (fun _ => rfl) _ ?_
        rw [stateOk_of_compilers_eq
          (declareScan_state c.locals.reverse c.scopeDepth name s).2]
        exact h

theorem stateOk_arity (s : State) (h : stateOk s = true) :
    stateOk (withFunction (fun f => { f with arity := f.arity + 1 }) s)
      = true := by
  unfold withFunction
  exact stateOk_withCompiler_of
    (fun c => { c with function :=
      { c.function with arity := c.function.arity + 1 } }) (fun _ => rfl) s h

theorem endsNullReturn_append (xs : List Nat) :
    endsNullReturn (xs ++ [OP_NULL, OP_RETURN]) = true := by
  unfold endsNullReturn
  rw [List.reverse_append]
  rfl

theorem compilers_emitByte_nil (b : Nat) (s : State) (h : s.compilers = []) :
    (emitByte b s).compilers = [] := by
  unfold emitByte withFunction withCompiler
  rw [h]
  exact h

/-- What the code after `emitBytes OP_NULL OP_RETURN` looks like on the
innermost frame. -/
theorem compilers_emit_null_return (s : State) (c0 : Compiler)
    (cs0 : List Compiler) (h : s.compilers = c0 :: cs0) :
    (emitBytes OP_NULL OP_RETURN s).compilers =
      { c0 with function :=
          { c0.function with
            code := (c0.function.code ++ [OP_NULL % 256]) ++ [OP_RETURN % 256],
            codeLines := (c0.function.codeLines ++ [s.previous.line]) ++
              [(emitByte OP_NULL s).previous.line] } } :: cs0 := by
  unfold emitBytes
  rw [compilers_emitByte OP_RETURN (emitByte OP_NULL s) _ cs0
    (compilers_emitByte OP_NULL s c0 cs0 h)]

/-- What `endCompiler` guarantees: the popped state keeps the invariant, and
the returned value — as interned by `funStatement` — is a well-ended
function (or the `NULL` pointer after an error). -/
theorem endCompiler_ok (s : State) (h : stateOk s = true) :
    stateOk (endCompiler s).1 = true ∧
    valueEndsOk (fnValue (endCompiler s).2) = true := by
  have h1 := stateOk_emitBytes OP_NULL OP_RETURN s h
  simp only [endCompiler]
  split
  · exact ⟨h1, rfl⟩
  · next c cs hcs =>
      unfold stateOk at h1
      rw [hcs] at h1
      simp only [stackOk, compilerOk, Bool.and_eq_true, beq_iff_eq] at h1
      obtain ⟨⟨hlen, hvals⟩, hrest⟩ := h1
      refine ⟨by simpa [stateOk, stackOk] using hrest, ?_⟩
      split
      · rfl
      · rcases hcs0 : s.compilers with _ | ⟨c0, cs0⟩
        · rw [show emitBytes OP_NULL OP_RETURN s =
              emitByte OP_RETURN (emitByte OP_NULL s) from rfl,
            compilers_emitByte_nil _ _ (compilers_emitByte_nil _ _ hcs0)] at hcs
          cases hcs
        · rw [compilers_emit_null_return s c0 cs0 hcs0] at hcs
          injection hcs with hc hcs'
          have hcode : c.function.code =
              c0.function.code ++ [OP_NULL, OP_RETURN] := by
            rw [← hc]
            simp
            exact ⟨by decide, by decide⟩
          simp only [fnValue, valueEndsOk, Bool.and_eq_true]
          exact ⟨hcode ▸ endsNullReturn_append _, hvals⟩

theorem stateOk_number (s : State) (h : stateOk s = true) :
    stateOk (number s) = true := by
  unfold number
  exact stateOk_emitConstant _ _ h rfl

theorem stateOk_stringLit (s : State) (h : stateOk s = true) :
    stateOk (stringLit s) = true := by
  unfold stringLit
  exact stateOk_emitConstant _ _ h rfl

theorem stateOk_boolean (s : State) (h : stateOk s = true) :
    stateOk (boolean s) = true := by
  unfold boolean
  exact stateOk_emitConstant _ _ h rfl

theorem stateOk_nullLit (s : State) (h : stateOk s = true) :
    stateOk (nullLit s) = true := by
  unfold nullLit
  exact stateOk_emitByte _ _ h

set_option maxHeartbeats 3200000 in
/-- Every parser function preserves the state invariant, at every fuel. -/
theorem parser_stateOk : ∀ fuel : Nat,
    (∀ p s, stateOk s = true → stateOk (parsePrecedence fuel p s) = true) ∧
    (∀ p b s, stateOk s = true → stateOk (infixLoop fuel p b s) = true) ∧
    (∀ pk b s, stateOk s = true → stateOk (runPfx fuel pk b s) = true) ∧
    (∀ ik b s, stateOk s = true → stateOk (runIfx fuel ik b s) = true) ∧
    (∀ s, stateOk s = true → stateOk (grouping fuel s) = true) ∧
    (∀ s, stateOk s = true → stateOk (unary fuel s) = true) ∧
    (∀ s, stateOk s = true → stateOk (binary fuel s) = true) ∧
    (∀ b s, stateOk s = true → stateOk (varRef fuel b s) = true) ∧
    (∀ s, stateOk s = true → stateOk (call fuel s) = true) ∧
    (∀ a s, stateOk s = true → stateOk ((callArgs fuel a s).1) = true) ∧
    (∀ s, stateOk s = true → stateOk (andRule fuel s) = true) ∧
    (∀ s, stateOk s = true → stateOk (orRule fuel s) = true) ∧
    (∀ s, stateOk s = true → stateOk (expression fuel s) = true) ∧
    (∀ s, stateOk s = true → stateOk (block fuel s) = true) ∧
    (∀ s, stateOk s = true → stateOk (blockLoop fuel s) = true) ∧
    (∀ s, stateOk s = true → stateOk (funStatement fuel s) = true) ∧
    (∀ s, stateOk s = true → stateOk (paramLoop fuel s) = true) ∧
    (∀ s, stateOk s = true → stateOk (ifStatement fuel s) = true) ∧
    (∀ s, stateOk s = true → stateOk (returnStatement fuel s) = true) ∧
    (∀ s, stateOk s = true → stateOk (varStatement fuel s) = true) ∧
    (∀ s, stateOk s = true → stateOk (whileStatement fuel s) = true) ∧
    (∀ s, stateOk s = true → stateOk (statement fuel s) = true) ∧
    (∀ s, stateOk s = true → stateOk (stmtLoop fuel s) = true) := by
  intro fuel
  induction fuel with
  | zero =>
      exact ⟨fun _ _ h => h, fun _ _ _ h => h, fun _ _ _ h => h,
        fun _ _ _ h => h, fun _ h => h, fun _ h => h, fun _ h => h,
        fun _ _ h => h, fun _ h => h, fun _ _ h => h, fun _ h => h,
        fun _ h => h, fun _ h => h, fun _ h => h, fun _ h => h, fun _ h => h,
        fun _ h => h, fun _ h => h, fun _ h => h, fun _ h => h, fun _ h => h,
        fun _ h => h, fun _ h => h⟩
  | succ n ih =>
      obtain ⟨ihPP, ihIL, ihRP, ihRI, ihGr, ihUn, ihBin, ihVar, ihCall, ihCA,
        ihAnd, ihOr, ihExpr, ihBlock, ihBL, ihFun, ihParam, ihIf, ihRet,
        ihVarSt, ihWhile, ihStmt, ihSL⟩ := ih
      refine ⟨?_, ?_, ?_, ?_, ?_, ?_, ?_, ?_, ?_, ?_, ?_, ?_, ?_, ?_, ?_, ?_,
        ?_, ?_, ?_, ?_, ?_, ?_, ?_⟩
      · -- parsePrecedence
        intro p s h
        simp only [parsePrecedence]
        split
        · exact stateOk_advance s h
        · exact ihIL _ _ _ (ihRP _ _ _ (stateOk_advance s h))
      · -- infixLoop
        intro p b s h
        simp only [infixLoop]
        split
        · split
          · exact ihIL _ _ _ (ihRI _ _ _ (stateOk_advance s h))
          · exact stateOk_advance s h
        · exact h
      · -- runPfx
        intro pk b s h
        cases pk with
        | grouping => exact ihGr _ h
        | unary => exact ihUn _ h
        | number => exact stateOk_number _ h
        | stringLit => exact stateOk_stringLit _ h
        | boolean => exact stateOk_boolean _ h
        | nullLit => exact stateOk_nullLit _ h
        | varRef => exact ihVar _ _ h
      · -- runIfx
        intro ik b s h
        cases ik with
        | call => exact ihCall _ h
        | binary => exact ihBin _ h
        | andRule => exact ihAnd _ h
        | orRule => exact ihOr _ h
      · -- grouping
        intro s h
        simp only [grouping]
        exact stateOk_consume _ _ _ (ihExpr _ h)
      · -- unary
        intro s h
        simp only [unary]
        split
        · exact stateOk_emitByte _ _ (ihPP _ _ h)
        · exact stateOk_emitByte _ _ (ihPP _ _ h)
        · exact ihPP _ _ h
      · -- binary
        intro s h
        simp only [binary]
        split <;>
          first
          | exact stateOk_emitBytes _ _ _ (ihPP _ _ h)
          | exact stateOk_emitByte _ _ (ihPP _ _ h)
          | exact ihPP _ _ h
      · -- varRef
        intro b s h
        simp only [varRef]
        split
        · split
          · split
            · exact stateOk_emitBytes _ _ _
                (ihExpr _ (stateOk_matchToken_fst _ _ h))
            · exact stateOk_emitBytes _ _ _ (stateOk_matchToken_fst _ _ h)
          · exact stateOk_emitBytes _ _ _ h
        · split
          · split
            · exact stateOk_emitBytes _ _ _ (ihExpr _
                (stateOk_matchToken_fst _ _ (stateOk_nameConstant_fst _ h)))
            · exact stateOk_emitBytes _ _ _
                (stateOk_matchToken_fst _ _ (stateOk_nameConstant_fst _ h))
          · exact stateOk_emitBytes _ _ _ (stateOk_nameConstant_fst _ h)
      · -- call
        intro s h
        simp only [call]
        split
        · exact stateOk_emitByte _ _ (stateOk_consume _ _ _ h)
        · exact stateOk_emitByte _ _ (stateOk_consume _ _ _ (ihCA _ _ h))
      · -- callArgs
        intro a s h
        simp only [callArgs]
        split
        · exact ihCA _ _ (stateOk_matchToken_fst _ _ (ihExpr _ h))
        · exact stateOk_matchToken_fst _ _ (ihExpr _ h)
      · -- andRule
        intro s h
        simp only [andRule]
        exact stateOk_patchJump _ _ (ihPP _ _
          (stateOk_emitByte _ _ (stateOk_emitJump_fst _ _ h)))
      · -- orRule
        intro s h
        simp only [orRule]
        exact stateOk_patchJump _ _ (ihPP _ _ (stateOk_emitByte _ _
          (stateOk_patchJump _ _
            (stateOk_emitJump_fst _ _ (stateOk_emitJump_fst _ _ h)))))
      · -- expression
        intro s h
        simp only [expression]
        exact ihPP _ _ h
      · -- block
        intro s h
        simp only [block]
        exact stateOk_consume _ _ _ (ihBL _ (stateOk_consume _ _ _ h))
      · -- blockLoop
        intro s h
        simp only [blockLoop]
        split
        · exact ihBL _ (ihStmt _ h)
        · exact h
      · -- funStatement
        intro s h
        simp only [funStatement]
        split
        · exact stateOk_declareVariable _ _ _
            (stateOk_emitConstant _ _
              (endCompiler_ok _ (stateOk_endScope _ (ihBlock _
                (stateOk_consume _ _ _ (stateOk_consume _ _ _
                  (stateOk_beginScope _ (stateOk_beginCompiler _
                    (stateOk_parseVariable_fst _ _ _ h)))))))).1
              (endCompiler_ok _ (stateOk_endScope _ (ihBlock _
                (stateOk_consume _ _ _ (stateOk_consume _ _ _
                  (stateOk_beginScope _ (stateOk_beginCompiler _
                    (stateOk_parseVariable_fst _ _ _ h)))))))).2)
        · exact stateOk_declareVariable _ _ _
            (stateOk_emitConstant _ _
              (endCompiler_ok _ (stateOk_endScope _ (ihBlock _
                (stateOk_consume _ _ _ (ihParam _ (stateOk_consume _ _ _
                  (stateOk_beginScope _ (stateOk_beginCompiler _
                    (stateOk_parseVariable_fst _ _ _ h))))))))).1
              (endCompiler_ok _ (stateOk_endScope _ (ihBlock _
                (stateOk_consume _ _ _ (ihParam _ (stateOk_consume _ _ _
                  (stateOk_beginScope _ (stateOk_beginCompiler _
                    (stateOk_parseVariable_fst _ _ _ h))))))))).2)
      · -- paramLoop
        intro s h
        simp only [paramLoop]
        split
        · exact ihParam _ (stateOk_matchToken_fst _ _ (stateOk_arity _
            (stateOk_declareVariable _ _ _
              (stateOk_parseVariable_fst _ _ _ h))))
        · exact stateOk_matchToken_fst _ _ (stateOk_arity _
            (stateOk_declareVariable _ _ _
              (stateOk_parseVariable_fst _ _ _ h)))
      · -- ifStatement
        intro s h
        simp only [ifStatement]
        split
        · exact stateOk_endScope _ (stateOk_patchJump _ _ (ihStmt _
            (stateOk_matchToken_fst _ _ (stateOk_emitByte _ _
              (stateOk_patchJump _ _ (stateOk_emitJump_fst _ _ (ihStmt _
                (stateOk_emitByte _ _ (stateOk_emitJump_fst _ _
                  (stateOk_beginScope _ (stateOk_consume _ _ _ (ihExpr _
                    (stateOk_consume _ _ _ h)))))))))))))
        · exact stateOk_endScope _ (stateOk_patchJump _ _
            (stateOk_matchToken_fst _ _ (stateOk_emitByte _ _
              (stateOk_patchJump _ _ (stateOk_emitJump_fst _ _ (ihStmt _
                (stateOk_emitByte _ _ (stateOk_emitJump_fst _ _
                  (stateOk_beginScope _ (stateOk_consume _ _ _ (ihExpr _
                    (stateOk_consume _ _ _ h))))))))))))
      · -- returnStatement
        intro s h
        simp only [returnStatement]
        split
        · exact stateOk_emitByte _ _ (stateOk_emitByte _ _
            (stateOk_matchToken_fst _ _ h))
        · exact stateOk_emitByte _ _ (stateOk_consume _ _ _
            (ihExpr _ (stateOk_matchToken_fst _ _ h)))
      · -- varStatement
        intro s h
        simp only [varStatement]
        exact stateOk_declareVariable _ _ _ (stateOk_consume _ _ _
          (ihExpr _ (stateOk_consume _ _ _
            (stateOk_parseVariable_fst _ _ _ h))))
      · -- whileStatement
        intro s h
        simp only [whileStatement]
        exact stateOk_endScope _ (stateOk_patchJump _ _ (stateOk_emitLoop _ _
          (ihStmt _ (stateOk_emitByte _ _ (stateOk_emitJump_fst _ _
            (stateOk_beginScope _ (stateOk_consume _ _ _ (ihExpr _
              (stateOk_consume _ _ _ h)))))))))
      · -- statement
        intro s h
        simp only [statement]
        split
        · exact ihFun _ (stateOk_matchToken_fst _ _ h)
        · split
          · exact ihIf _ (stateOk_matchToken_fst _ _
              (stateOk_matchToken_fst _ _ h))
          · split
            · exact ihRet _ (stateOk_matchToken_fst _ _
                (stateOk_matchToken_fst _ _ (stateOk_matchToken_fst _ _ h)))
            · split
              · exact ihVarSt _ (stateOk_matchToken_fst _ _
                  (stateOk_matchToken_fst _ _ (stateOk_matchToken_fst _ _
                    (stateOk_matchToken_fst _ _ h))))
              · split
                · exact ihWhile _ (stateOk_matchToken_fst _ _
                    (stateOk_matchToken_fst _ _ (stateOk_matchToken_fst _ _
                      (stateOk_matchToken_fst _ _
                        (stateOk_matchToken_fst _ _ h)))))
                · split
                  · exact stateOk_endScope _ (ihBlock _ (stateOk_beginScope _
                      (stateOk_matchToken_fst _ _ (stateOk_matchToken_fst _ _
                        (stateOk_matchToken_fst _ _ (stateOk_matchToken_fst _ _
                          (stateOk_matchToken_fst _ _ h)))))))
                  · exact stateOk_consume _ _ _ (stateOk_emitByte _ _
                      (ihExpr _ (stateOk_matchToken_fst _ _
                        (stateOk_matchToken_fst _ _ (stateOk_matchToken_fst _ _
                          (stateOk_matchToken_fst _ _
                            (stateOk_matchToken_fst _ _ h)))))))
      · -- stmtLoop
        intro s h
        simp only [stmtLoop]
        split
        · exact stateOk_matchToken_fst _ _ (ihStmt _ h)
        · exact ihSL _ (stateOk_matchToken_fst _ _ (ihStmt _ h))

/-- C4: after `patch_jump(offset)` on a placeholder inside the code (with
the patched distance inside the 16-bit range the spec requires of every
jump), the bytes at `code[offset]` and `code[offset+1]` hold exactly the
big-endian unsigned encoding of `len(code) − offset − 2`, the code length
being unchanged by the patch. -/
theorem patchJump_encodes_distance (offset : Nat) (s : State)
    (hc : s.compilers ≠ [])
    (hoff : offset + 2 ≤ (curCode s).length)
    (hfit : (curCode s).length - offset - 2 < 65536) :
    (curCode (patchJump offset s)).length = (curCode s).length ∧
    (curCode (patchJump offset s))[offset]? =
      some (((curCode s).length - offset - 2) / 256) ∧
    (curCode (patchJump offset s))[offset + 1]? =
      some (((curCode s).length - offset - 2) % 256) ∧
    ((curCode s).length - offset - 2) / 256 < 256 ∧
    256 * (((curCode s).length - offset - 2) / 256) +
        ((curCode s).length - offset - 2) % 256 =
      (curCode s).length - offset - 2 := by
  rcases hcs : s.compilers with _ | ⟨c, cs⟩
  · exact absurd hcs hc
  · have hcur : curCode s = c.function.code := curCode_compilers s c cs hcs
    have hcc : codeCount s = c.function.code.length := by
      rw [codeCount_curCode, hcur]
    rw [hcur] at hoff hfit ⊢
    have hpc : curCode (patchJump offset s) =
        (c.function.code.set offset
            ((((c.function.code.length : Int) - offset - 2).toNat >>> 8) % 256)).set
          (offset + 1)
          (((c.function.code.length : Int) - offset - 2).toNat % 256) := by
      unfold patchJump withFunction withCompiler
      rw [hcc, hcs]
      unfold curCode
      simp
    have htn : (((c.function.code.length : Int) - offset - 2)).toNat =
        c.function.code.length - offset - 2 := by omega
    rw [htn] at hpc
    have hsr : (c.function.code.length - offset - 2) >>> 8 =
        (c.function.code.length - offset - 2) / 256 := by
      rw [Nat.shiftRight_eq_div_pow]
    rw [hsr] at hpc
    have hdivlt : (c.function.code.length - offset - 2) / 256 < 256 := by omega
    have hmod1 : (c.function.code.length - offset - 2) / 256 % 256 =
        (c.function.code.length - offset - 2) / 256 := Nat.mod_eq_of_lt hdivlt
    rw [hmod1] at hpc
    rw [hpc]
    refine ⟨by simp, ?_, ?_, hdivlt, by omega⟩
    · rw [List.getElem?_set_ne (by omega : offset + 1 ≠ offset)]
      exact List.getElem?_set_eq_of_lt _ (by omega)
    · exact List.getElem?_set_eq_of_lt _ (by simp; omega)

/-- C4 witness: the theorem applied to `patchState` (four bytes of code,
placeholder at offset 1, distance 1). -/
theorem patchJump_encodes_distance_witness :
    (curCode (patchJump 1 patchState)).length = (curCode patchState).length ∧
    (curCode (patchJump 1 patchState))[1]? =
      some (((curCode patchState).length - 1 - 2) / 256) ∧
    (curCode (patchJump 1 patchState))[1 + 1]? =
      some (((curCode patchState).length - 1 - 2) % 256) ∧
    ((curCode patchState).length - 1 - 2) / 256 < 256 ∧
    256 * (((curCode patchState).length - 1 - 2) / 256) +
        ((curCode patchState).length - 1 - 2) % 256 =
      (curCode patchState).length - 1 - 2 :=
  patchJump_encodes_distance 1 patchState (List.cons_ne_nil _ _)
    (by decide) (by decide)

/-- C5: `emit_loop(start)` appends `OP_LOOP` and two operand bytes that
encode, big-endian unsigned, exactly `len(code) − start + 2` where
`len(code)` is read after the `OP_LOOP` byte (the moment the source
computes the offset) — equivalently, the backward distance from the byte
just after the operand to position `start`. -/
theorem emitLoop_encodes_back_distance (loopStart : Nat) (s : State)
    (hc : s.compilers ≠ [])
    (hstart : loopStart ≤ (curCode s).length)
    (hfit : (curCode s).length + 3 - loopStart < 65536) :
    curCode (emitLoop loopStart s) =
      curCode s ++ [OP_LOOP,
        ((curCode s).length + 1 - loopStart + 2) / 256,
        ((curCode s).length + 1 - loopStart + 2) % 256] ∧
    ((curCode s).length + 1 - loopStart + 2) / 256 < 256 ∧
    256 * (((curCode s).length + 1 - loopStart + 2) / 256) +
        ((curCode s).length + 1 - loopStart + 2) % 256 =
      (curCode (emitLoop loopStart s)).length - loopStart := by
  rcases hcs : s.compilers with _ | ⟨c, cs⟩
  · exact absurd hcs hc
  · have hcur : curCode s = c.function.code := curCode_compilers s c cs hcs
    rw [hcur] at hstart hfit ⊢
    have hpc : curCode (emitLoop loopStart s) =
        c.function.code ++ [OP_LOOP % 256,
          ((((c.function.code.length + 1 : Int) - loopStart + 2).toNat >>> 8) % 256)
            % 256,
          ((((c.function.code.length + 1 : Int) - loopStart + 2).toNat % 256)
            % 256)] := by
      unfold emitLoop emitByte withFunction withCompiler codeCount
      rw [hcs]
      unfold curCode
      simp
    have htn : (((c.function.code.length + 1 : Int) - loopStart + 2)).toNat =
        c.function.code.length + 1 - loopStart + 2 := by omega
    have hj : c.function.code.length + 1 - loopStart + 2 =
        c.function.code.length + 3 - loopStart := by omega
    have hsr : (c.function.code.length + 1 - loopStart + 2) >>> 8 =
        (c.function.code.length + 1 - loopStart + 2) / 256 := by
      rw [Nat.shiftRight_eq_div_pow]
    have hdivlt : (c.function.code.length + 1 - loopStart + 2) / 256 < 256 := by
      omega
    rw [htn, hsr] at hpc
    have hmods : (c.function.code.length + 1 - loopStart + 2) / 256 % 256 % 256 =
        (c.function.code.length + 1 - loopStart + 2) / 256 := by omega
    have hmods2 : (c.function.code.length + 1 - loopStart + 2) % 256 % 256 =
        (c.function.code.length + 1 - loopStart + 2) % 256 := by omega
    have hop : OP_LOOP % 256 = OP_LOOP := by decide
    rw [hmods, hmods2, hop] at hpc
    refine ⟨hpc, hdivlt, ?_⟩
    rw [hpc]
    simp only [List.length_append, List.length_cons, List.length_nil]
    omega

/-- C5 witness: the theorem applied to `loopState` (one byte of code, loop
start 0, operand 4). -/
theorem emitLoop_encodes_back_distance_witness :
    curCode (emitLoop 0 loopState) =
      curCode loopState ++ [OP_LOOP,
        ((curCode loopState).length + 1 - 0 + 2) / 256,
        ((curCode loopState).length + 1 - 0 + 2) % 256] ∧
    ((curCode loopState).length + 1 - 0 + 2) / 256 < 256 ∧
    256 * (((curCode loopState).length + 1 - 0 + 2) / 256) +
        ((curCode loopState).length + 1 - 0 + 2) % 256 =
      (curCode (emitLoop 0 loopState)).length - 0 :=
  emitLoop_encodes_back_distance 0 loopState (List.cons_ne_nil _ _)
    (by decide) (by decide)

/-- C8: declaring a local runs the duplicate scan over the locals from the
top down, stopping at the first entry of an enclosing scope
(`depth < scope_depth`): the diagnostics gained are exactly one
"Variable with this name already declared in this scope." at the line of
the new name token per same-lexeme entry scanned; in particular, when a
same-named local lives only in an enclosing scope (past the stop point),
no diagnostic at all is produced. -/
theorem declare_duplicate_diagnostic (s : State) (c : Compiler)
    (cs : List Compiler) (name : Token) (constant : Nat)
    (hcs : s.compilers = c :: cs) (hd : c.scopeDepth ≠ -1) :
    ((declareVariable name constant s).errors =
      s.errors ++
        (((c.locals.reverse.takeWhile
              (fun l => !decide (l.depth < c.scopeDepth))).filter
            (fun l => l.name.lexeme == name.lexeme)).map
          (fun _ => (name.line, dupLocalMsg)))) ∧
    ((∃ l ∈ c.locals.reverse.takeWhile
          (fun l => !decide (l.depth < c.scopeDepth)),
        l.name.lexeme = name.lexeme) →
      (name.line, dupLocalMsg) ∈ (declareVariable name constant s).errors) ∧
    ((∀ l ∈ c.locals.reverse.takeWhile
          (fun l => !decide (l.depth < c.scopeDepth)),
        l.name.lexeme ≠ name.lexeme) →
      (declareVariable name constant s).errors = s.errors) := by
  have hmain : (declareVariable name constant s).errors =
      s.errors ++
        (((c.locals.reverse.takeWhile
              (fun l => !decide (l.depth < c.scopeDepth))).filter
            (fun l => l.name.lexeme == name.lexeme)).map
          (fun _ => (name.line, dupLocalMsg))) := by
    unfold declareVariable
    rw [hcs]
    simp only [if_neg hd]
    rw [errors_withCompiler]
    exact (declareScan_state c.locals.reverse c.scopeDepth name s).1
  refine ⟨hmain, ?_, ?_⟩
  · rintro ⟨l, hl, hx⟩
    rw [hmain]
    refine List.mem_append_right _ ?_
    refine List.mem_map.mpr ⟨l, ?_, rfl⟩
    exact List.mem_filter.mpr ⟨hl, by simp [hx]⟩
  · intro hall
    rw [hmain, List.filter_eq_nil_iff.mpr (fun l hl => by simp [hall l hl]),
      List.map_nil, List.append_nil]

/-- C8 witness: the theorem applied to `dupState` (a local `a` at depth 0,
scope depth 0) and a second declaration of `a` on line 7. -/
theorem declare_duplicate_diagnostic_witness :
    ((declareVariable dupName 0 dupState).errors =
      dupState.errors ++
        ((((⟨newFunction, [⟨⟨.tIdentifier, "a", 3⟩, 0⟩], 0⟩ :
              Compiler).locals.reverse.takeWhile
              (fun l => !decide (l.depth < (0 : Int)))).filter
            (fun l => l.name.lexeme == dupName.lexeme)).map
          (fun _ => (dupName.line, dupLocalMsg)))) ∧
    ((∃ l ∈ (⟨newFunction, [⟨⟨.tIdentifier, "a", 3⟩, 0⟩], 0⟩ :
          Compiler).locals.reverse.takeWhile
          (fun l => !decide (l.depth < (0 : Int))),
        l.name.lexeme = dupName.lexeme) →
      (dupName.line, dupLocalMsg) ∈ (declareVariable dupName 0 dupState).errors) ∧
    ((∀ l ∈ (⟨newFunction, [⟨⟨.tIdentifier, "a", 3⟩, 0⟩], 0⟩ :
          Compiler).locals.reverse.takeWhile
          (fun l => !decide (l.depth < (0 : Int))),
        l.name.lexeme ≠ dupName.lexeme) →
      (declareVariable dupName 0 dupState).errors = dupState.errors) :=
  declare_duplicate_diagnostic dupState _ [] dupName 0 rfl (by decide)

/-- C10: even when the duplicate diagnostic fires, `declareVariable` still
appends the new entry to the locals table (so `local_count` grows by one),
and `resolveLocal` on that name afterwards returns the index of the new,
topmost entry. -/
theorem declare_appends_and_resolves_topmost (s : State) (c : Compiler)
    (cs : List Compiler) (name : Token) (constant : Nat)
    (hcs : s.compilers = c :: cs) (hd : c.scopeDepth ≠ -1) :
    curLocals (declareVariable name constant s) =
      c.locals ++ [⟨name, c.scopeDepth⟩] ∧
    (curLocals (declareVariable name constant s)).length =
      c.locals.length + 1 ∧
    resolveLocal name (declareVariable name constant s) =
      (c.locals.length : Int) := by
  have hsc := (declareScan_state c.locals.reverse c.scopeDepth name s).2
  have hcomp : (declareVariable name constant s).compilers =
      { c with locals := c.locals ++ [⟨name, c.scopeDepth⟩] } :: cs := by
    unfold declareVariable
    rw [hcs]
    simp only [if_neg hd]
    unfold withCompiler
    rw [hsc, hcs]
  have hloc : curLocals (declareVariable name constant s) =
      c.locals ++ [⟨name, c.scopeDepth⟩] := by
    unfold curLocals
    rw [hcomp]
  refine ⟨hloc, by rw [hloc]; simp, ?_⟩
  unfold resolveLocal
  rw [hcomp]
  simp [resolveLocalAux]

/-- C10 witness: the theorem applied to `dupState` and the duplicate name
`a`; the entry is appended and resolves to index 1 despite the
diagnostic. -/
theorem declare_appends_and_resolves_topmost_witness :
    curLocals (declareVariable dupName 0 dupState) =
      [⟨⟨.tIdentifier, "a", 3⟩, 0⟩, ⟨dupName, 0⟩] ∧
    (curLocals (declareVariable dupName 0 dupState)).length = 1 + 1 ∧
    resolveLocal dupName (declareVariable dupName 0 dupState) = (1 : Int) :=
  declare_appends_and_resolves_topmost dupState
    ⟨newFunction, [⟨⟨.tIdentifier, "a", 3⟩, 0⟩], 0⟩ [] dupName 0 rfl (by decide)

theorem stateOk_stmtLoop (fuel : Nat) (s : State) (h : stateOk s = true) :
    stateOk (stmtLoop fuel s) = true := by
  obtain ⟨_, _, _, _, _, _, _, _, _, _, _, _, _, _, _, _, _, _, _, _, _, _,
    hSL⟩ := parser_stateOk fuel
  exact hSL s h

theorem curLines_compilers (s : State) (c : Compiler) (cs : List Compiler)
    (h : s.compilers = c :: cs) : curLines s = c.function.codeLines := by
  unfold curLines
  rw [h]

/-- What `endCompiler` returns on success, given the invariant: a function
whose code and line table are parallel, whose code ends in
`OP_NULL, OP_RETURN`, and whose interned constants are all well-ended. -/
theorem endCompiler_some (s : State) (f : ObjFunction) (h : stateOk s = true)
    (hf : (endCompiler s).2 = some f) :
    f.code.length = f.codeLines.length ∧
    endsNullReturn f.code = true ∧ valuesEndOk f.constants = true := by
  have h2 := (endCompiler_ok s h).2
  rw [hf] at h2
  simp only [fnValue, valueEndsOk, Bool.and_eq_true] at h2
  refine ⟨?_, h2.1, h2.2⟩
  have h1 := stateOk_emitBytes OP_NULL OP_RETURN s h
  simp only [endCompiler] at hf
  split at hf
  · cases hf
  · next c cs hcs =>
      split at hf
      · cases hf
      · injection hf with hf'
        subst hf'
        unfold stateOk at h1
        rw [hcs] at h1
        simp only [stackOk, compilerOk, Bool.and_eq_true, beq_iff_eq] at h1
        exact h1.1.1

/-- The state `compile` hands to its final `endCompiler` satisfies the
invariant. -/
theorem compile_some_wf (fuel : Nat) (tokens : List Token) (f : ObjFunction)
    (hf : (compile fuel tokens).2 = some f) :
    f.code.length = f.codeLines.length ∧
    endsNullReturn f.code = true ∧ valuesEndOk f.constants = true := by
  have h1 : stateOk (advance
      { beginCompiler (initState tokens) with hadError := false }) = true :=
    stateOk_advance _ (stateOk_beginCompiler (initState tokens) rfl)
  simp only [compile] at hf
  split at hf
  · exact endCompiler_some _ _ (stateOk_matchToken_fst _ _ h1) hf
  · exact endCompiler_some _ _
      (stateOk_stmtLoop _ _ (stateOk_matchToken_fst _ _ h1)) hf

/-- C6: the code bytes and the line table stay parallel: `emit_byte` — the
only operation that appends to either sequence — appends one entry to both
(the byte to `code`, the previous token's line to `code_lines`), and on the
function returned by every successful compilation the two lengths are
equal. -/
theorem code_lines_parallel :
    (∀ b : Nat, ∀ s : State, s.compilers ≠ [] →
        curCode (emitByte b s) = curCode s ++ [b % 256] ∧
        curLines (emitByte b s) = curLines s ++ [s.previous.line]) ∧
    (∀ fuel : Nat, ∀ tokens : List Token, ∀ f : ObjFunction,
        (compile fuel tokens).2 = some f →
        f.code.length = f.codeLines.length) := by
  constructor
  · intro b s hc
    rcases hcs : s.compilers with _ | ⟨c, cs⟩
    · exact absurd hcs hc
    · have h := compilers_emitByte b s c cs hcs
      rw [curCode_compilers s c cs hcs, curLines_compilers s c cs hcs]
      constructor
      · unfold curCode
        rw [h]
      · unfold curLines
        rw [h]
  · intro fuel tokens f hf
    exact (compile_some_wf fuel tokens f hf).1

/-- C6 witness: one `emitByte` on a live frame appends to both sequences,
and the empty program's compiled function has parallel tables. -/
theorem code_lines_parallel_witness :
    (curCode (emitByte 2 emptyPoolState) =
        curCode emptyPoolState ++ [2 % 256] ∧
      curLines (emitByte 2 emptyPoolState) =
        curLines emptyPoolState ++ [emptyPoolState.previous.line]) ∧
    (⟨[OP_NULL, OP_RETURN], [1, 1], [], 0⟩ : ObjFunction).code.length =
      (⟨[OP_NULL, OP_RETURN], [1, 1], [], 0⟩ : ObjFunction).codeLines.length :=
  ⟨code_lines_parallel.1 2 emptyPoolState (List.cons_ne_nil _ _),
   code_lines_parallel.2 10 [⟨.tEof, "", 1⟩] _ rfl⟩

/-- C7: every function produced by a successful compilation — the top-level
one, and transitively every nested function interned in a constant pool —
has code ending in the two bytes `OP_NULL, OP_RETURN`. -/
theorem functions_end_null_return (fuel : Nat) (tokens : List Token)
    (f : ObjFunction) (hf : (compile fuel tokens).2 = some f) :
    endsNullReturn f.code = true ∧ valuesEndOk f.constants = true :=
  ⟨(compile_some_wf fuel tokens f hf).2.1,
   (compile_some_wf fuel tokens f hf).2.2⟩

/-- C7 witness: the theorem applied to the `fun f(a, b) …` program, whose
result holds a nested function in its pool. -/
theorem functions_end_null_return_witness :
    endsNullReturn c3OuterFn.code = true ∧
    valuesEndOk c3OuterFn.constants = true :=
  functions_end_null_return 50 c3Tokens c3OuterFn (by rfl)

/-- C9: compiling an empty token stream (the scanner immediately yields
EOF) succeeds with no diagnostics and returns a function whose code is
exactly `OP_NULL, OP_RETURN`, with arity 0 and an empty constant pool. -/
theorem compile_empty_program :
    (compile 10 [⟨.tEof, "", 1⟩]).2 =
      some ⟨[OP_NULL, OP_RETURN], [1, 1], [], 0⟩ ∧
    (compile 10 [⟨.tEof, "", 1⟩]).1.errors = [] ∧
    (compile 10 [⟨.tEof, "", 1⟩]).1.hadError = false :=
  ⟨rfl, rfl, rfl⟩

end CLox
